import Mathlib

/-!
Verification development for the CAD model evaluation engine
(`src/utils/cad_evaluator.py`, class `CADEvaluator`).

The Python code is shallowly embedded:

* machine floats are idealised as exact rationals (`ℚ`);
* the one genuinely irrational primitive, `numpy`'s square root, is made an
  explicit parameter `O : ℚ → ℚ` (a "sqrt oracle"); theorems that depend on
  its numerical behaviour carry the hypothesis that `O` agrees with the real
  square root on the values at which the program queries it, and theorems
  that do not depend on it hold for every oracle;
* `numpy`'s global random state is made an explicit `Rng` value recording the
  outcomes of the random draws (the code has no seed parameter, so the draws
  are a hidden input of the Python functions);
* a raised Python exception is an `Except.error` carrying the message.
-/

/-- A 3D point, as one row of the `numpy` point arrays. -/
abbrev Q3 := ℚ × ℚ × ℚ

/-- Decidable equality of embedded call results (`Except` values). -/
instance exceptDecEq {ε α : Type} [DecidableEq ε] [DecidableEq α] : DecidableEq (Except ε α) :=
  fun a b =>
    match a, b with
    | .ok x, .ok y => decidable_of_iff (x = y) (by simp)
    | .error x, .error y => decidable_of_iff (x = y) (by simp)
    | .ok _, .error _ => isFalse (by simp)
    | .error _, .ok _ => isFalse (by simp)

/-- Componentwise subtraction of 3D points (`points - mean`). -/
def vsub (p q : Q3) : Q3 := (p.1 - q.1, p.2.1 - q.2.1, p.2.2 - q.2.2)

/-- Componentwise addition of 3D points. -/
def vadd (p q : Q3) : Q3 := (p.1 + q.1, p.2.1 + q.2.1, p.2.2 + q.2.2)

/-- Scalar multiplication of a 3D point. -/
def vsmul (a : ℚ) (p : Q3) : Q3 := (a * p.1, a * p.2.1, a * p.2.2)

/-- Componentwise division of a 3D point by a scalar (`points / scale`). -/
def vdiv (p : Q3) (s : ℚ) : Q3 := (p.1 / s, p.2.1 / s, p.2.2 / s)

/-- Sum of a list of 3D points (`np.sum(points, axis=0)`). -/
def vsum (l : List Q3) : Q3 := l.foldr vadd (0, 0, 0)

/-- Squared Euclidean norm of a point (`np.sum(points**2, axis=1)`). -/
def sqNorm (p : Q3) : ℚ := p.1 ^ 2 + p.2.1 ^ 2 + p.2.2 ^ 2

/-- Squared Euclidean distance between two points. -/
def sqDist (p q : Q3) : ℚ := (p.1 - q.1) ^ 2 + (p.2.1 - q.2.1) ^ 2 + (p.2.2 - q.2.2) ^ 2

/-- Maximum of a list of rationals; `np.max`.  The Python call raises on an
empty array, so callers below guard emptiness and the `[]` value is junk. -/
def maxList : List ℚ → ℚ
  | [] => 0
  | [x] => x
  | x :: y :: t => max x (maxList (y :: t))

/-- Minimum of a list of rationals; `np.min` / a 1-nearest-neighbour query.
Callers guard emptiness; the `[]` value is junk. -/
def minList : List ℚ → ℚ
  | [] => 0
  | [x] => x
  | x :: y :: t => min x (minList (y :: t))

/-- The letter grades of the evaluator. -/
inductive Grade where
  | A | B | C | D | F
deriving DecidableEq, Repr

/-- `self.grading_thresholds` from `CADEvaluator.__init__` (lines 14-20):
an insertion-ordered dict `grade -> upper bound on mean deviation`, with
`float('inf')` embedded as `⊤ : WithTop ℚ`. -/
def grading_thresholds : List (Grade × WithTop ℚ) :=
  [(Grade.A, ((1 : ℚ)/10 : ℚ)), (Grade.B, ((1 : ℚ)/2 : ℚ)),
   (Grade.C, (1 : ℚ)), (Grade.D, (2 : ℚ)), (Grade.F, ⊤)]

/-- `self.detailed_scoring` from `CADEvaluator.__init__` (lines 22-28):
the `(min_score, max_score)` band of each grade. -/
def detailed_scoring : Grade → ℚ × ℚ
  | Grade.A => (95, 100)
  | Grade.B => (85, 94)
  | Grade.C => (75, 84)
  | Grade.D => (65, 74)
  | Grade.F => (0, 64)

/-- The grade-selection loop of `calculate_grade` (lines 246-250): iterate the
threshold table in insertion order, return the first grade whose threshold is
`>= mean_dev`, keeping the initialisation `letter_grade = 'F'` if none is. -/
def letterLoop (tbl : List (Grade × WithTop ℚ)) (mean_dev : ℚ) : Grade :=
  match tbl with
  | [] => Grade.F
  | (g, t) :: rest => if (mean_dev : WithTop ℚ) ≤ t then g else letterLoop rest mean_dev

/-- Letter grade of a mean deviation, over the evaluator's own table. -/
def letterGradeOf (mean_dev : ℚ) : Grade := letterLoop grading_thresholds mean_dev

/-- The key list `list(self.grading_thresholds.keys())` used by
`calculate_grade` for the previous-grade lookup (lines 260-262). -/
def gradeKeys : List Grade := grading_thresholds.map Prod.fst

/-- `list(keys)[list(keys).index(letter_grade) - 1]`: the previous (stricter)
grade in table order (lines 260-262). -/
def prevGrade (g : Grade) : Grade :=
  gradeKeys.getD (gradeKeys.indexOf g - 1) Grade.F

/-- Threshold of a grade as the finite rational the arithmetic of
`calculate_grade` uses (only queried at grades with finite thresholds). -/
def thrQ (g : Grade) : ℚ :=
  (((grading_thresholds.find? (fun p => p.1 = g)).map Prod.snd).getD ⊤).untop' 0

/-- The raw numerical score of `calculate_grade` before the max-deviation
penalty and the clamp (lines 252-266). -/
def rawScore (mean_dev : ℚ) : ℚ :=
  let g := letterGradeOf mean_dev
  let band := detailed_scoring g
  match g with
  | Grade.A =>
      let score_factor := max 0 (1 - mean_dev / thrQ Grade.A)
      band.1 + (band.2 - band.1) * score_factor
  | Grade.F => max 0 (band.1 - mean_dev * 10)
  | _ =>
      let prev_threshold := thrQ (prevGrade g)
      let curr_threshold := thrQ g
      let score_factor := (curr_threshold - mean_dev) / (curr_threshold - prev_threshold)
      band.1 + (band.2 - band.1) * score_factor

/-- The secondary max-deviation penalty of `calculate_grade` (lines 268-271). -/
def penalizedScore (mean_dev max_dev : ℚ) : ℚ :=
  if max_dev > 5 then rawScore mean_dev - 10
  else if max_dev > 3 then rawScore mean_dev - 5
  else rawScore mean_dev

/-- The clamp `max(0, min(100, numerical_score))` (line 273). -/
def clampScore (s : ℚ) : ℚ := max 0 (min 100 s)

/-- Round-half-to-even on rationals, the mathematical content of Python's
`round`. -/
def roundHalfEven (q : ℚ) : ℤ :=
  let f := ⌊q⌋
  let r := q - f
  if r < 1/2 then f
  else if 1/2 < r then f + 1
  else if Even f then f else f + 1

/-- `round(numerical_score, 1)` (line 277): round to one decimal place. -/
def round1 (q : ℚ) : ℚ := (roundHalfEven (10 * q) : ℚ) / 10

/-- The `numerical_score` field returned by `calculate_grade` (lines 268-277):
penalty, clamp, then rounding to one decimal. -/
def finalScore (mean_dev max_dev : ℚ) : ℚ :=
  round1 (clampScore (penalizedScore mean_dev max_dev))

/-- The interpolation map for an intermediate grade, as the claim about
lines 259-266 describes it: deviation at the previous (stricter) grade's
threshold maps to the band maximum, deviation at the grade's own threshold to
the band minimum. -/
def interpMap (g : Grade) (d : ℚ) : ℚ :=
  (detailed_scoring g).1 +
    ((detailed_scoring g).2 - (detailed_scoring g).1) * (thrQ g - d) /
      (thrQ g - thrQ (prevGrade g))

/-- Follows the spec's words (§4.3 and the ThresholdTable data model): iterate
the table in ascending threshold order, select the first grade whose threshold
is `≥` the mean deviation, and if none matches select the catch-all (lowest)
grade, i.e. the terminal entry of the table. -/
def specFirstMatchGrade (tbl : List (Grade × WithTop ℚ)) (mean_dev : ℚ) : Grade :=
  match tbl.find? (fun p => decide ((mean_dev : WithTop ℚ) ≤ p.2)) with
  | some p => p.1
  | none => ((tbl.getLast?).map Prod.fst).getD Grade.F

/-- A triangulated mesh as the engine sees it: vertex positions, triangular
faces (vertex index triples), and the `trimesh`-derived `is_watertight` flag. -/
structure Mesh where
  vertices : List Q3
  faces : List (ℕ × ℕ × ℕ)
  watertight : Bool
deriving DecidableEq

/-- The outcomes drawn from `numpy`'s ambient global random state during one
call of `extract_point_cloud`: `idx n` is the n-th random integer draw (used
to pick vertices or faces) and `bary n` the n-th barycentric coordinate pair
(used by `trimesh.sample.sample_surface`).  The Python code has no seed
parameter: this state is a hidden input of the call. -/
structure Rng where
  idx : ℕ → ℕ
  bary : ℕ → ℚ × ℚ

/-- One surface sample of `trimesh.sample.sample_surface`: pick a face (the
area-weighted pick is resolved by the recorded random outcome) and a point
inside it by barycentric coordinates. -/
def surfPoint (m : Mesh) (rng : Rng) (i : ℕ) : Q3 :=
  let f := m.faces.getD (rng.idx i % m.faces.length) (0, 0, 0)
  let a := m.vertices.getD f.1 (0, 0, 0)
  let b := m.vertices.getD f.2.1 (0, 0, 0)
  let c := m.vertices.getD f.2.2 (0, 0, 0)
  let uv := rng.bary i
  vadd (vsmul (1 - uv.1 - uv.2) a) (vadd (vsmul uv.1 b) (vsmul uv.2 c))

/-- Sampling without replacement (`np.random.choice(n, k, replace=False)`):
repeatedly remove the position selected by the recorded random outcome from
the remaining pool, so the chosen indices are pairwise distinct. -/
def drawWOR (f : ℕ → ℕ) : ℕ → ℕ → List ℕ → List ℕ
  | _step, 0, _pool => []
  | _step, _k + 1, [] => []
  | step, k + 1, x :: xs =>
      let pool := x :: xs
      let j := f step % pool.length
      pool.getD j 0 :: drawWOR f (step + 1) k (pool.eraseIdx j)

/-- Message of the `ValueError` numpy raises for `np.max` of an empty array. -/
def zeroSizeMsg : String := "zero-size array to reduction operation maximum which has no identity"

/-- Message of the `ValueError` numpy raises for `np.random.choice` with an
empty population and a positive sample count. -/
def emptyChoiceMsg : String := "a cannot be empty unless no samples are taken"

/-- Message for `trimesh.sample.sample_surface` failing on a mesh without
faces (it cannot build the area-weighted face distribution). -/
def emptyFacesMsg : String := "unable to sample the surface of a mesh with no faces"

/-- The point-selection part of `extract_point_cloud` (lines 198-206):
surface sampling for a watertight mesh, otherwise vertex sampling without
replacement when the mesh has at least `num_points` vertices and with
replacement when it has fewer. -/
def sampleSelection (m : Mesh) (num_points : ℕ) (rng : Rng) : Except String (List Q3) :=
  if m.watertight then
    if num_points ≠ 0 ∧ m.faces = [] then .error emptyFacesMsg
    else .ok ((List.range num_points).map (surfPoint m rng))
  else
    if num_points ≤ m.vertices.length then
      .ok ((drawWOR rng.idx 0 num_points (List.range m.vertices.length)).map
            (fun i => m.vertices.getD i (0, 0, 0)))
    else
      if m.vertices.length = 0 then .error emptyChoiceMsg
      else .ok ((List.range num_points).map
            (fun i => m.vertices.getD (rng.idx i % m.vertices.length) (0, 0, 0)))

/-- `np.mean(points, axis=0)`: the centroid of a point list. -/
def centroid (l : List Q3) : Q3 := vdiv (vsum l) (l.length : ℚ)

/-- `points - np.mean(points, axis=0)` (line 209). -/
def centerPts (l : List Q3) : List Q3 := l.map (fun p => vsub p (centroid l))

/-- `scale = np.max(np.sqrt(np.sum(points**2, axis=1)))` (line 210), with the
square root supplied by the oracle `O`. -/
def scaleOf (O : ℚ → ℚ) (c : List Q3) : ℚ := maxList (c.map (fun p => O (sqNorm p)))

/-- Lines 211-212: `if scale > 0: points = points / scale`. -/
def applyScale (O : ℚ → ℚ) (c : List Q3) : List Q3 :=
  if 0 < scaleOf O c then c.map (fun p => vdiv p (scaleOf O c)) else c

/-- Maximum squared point norm of a cloud; `1` exactly when the maximum
point-to-origin distance is `1`. -/
def maxSqNorm (l : List Q3) : ℚ := maxList (l.map sqNorm)

/-- `extract_point_cloud` (lines 196-214): select points, centre them, and
divide by the maximal norm when it is positive.  `np.max` raising on an empty
reduction is the `.error` case; the float32 cast is idealised away. -/
def extract_point_cloud (O : ℚ → ℚ) (m : Mesh) (num_points : ℕ) (rng : Rng) :
    Except String (List Q3) :=
  (sampleSelection m num_points rng).bind (fun pts =>
    if pts = [] then .error zeroSizeMsg
    else .ok (applyScale O (centerPts pts)))

/-- Distance from a point to its nearest neighbour in a cloud, as the
1-nearest-neighbour query of `sklearn.neighbors.NearestNeighbors` returns it:
the minimum over the cloud of the Euclidean distance (oracle square root of
the squared distance). -/
def nnDist (O : ℚ → ℚ) (p : Q3) (cloud : List Q3) : ℚ :=
  minList (cloud.map (fun q => O (sqDist p q)))

/-- Mean of a list (`np.mean`). -/
def meanList (l : List ℚ) : ℚ := l.sum / (l.length : ℚ)

/-- Median of a list (`np.median`): middle element of the sorted list, or the
mean of the two middle elements for even length. -/
def medianList (l : List ℚ) : ℚ :=
  let s := List.insertionSort (fun a b => a ≤ b) l
  if l.length % 2 = 1 then s.getD (l.length / 2) 0
  else (s.getD (l.length / 2 - 1) 0 + s.getD (l.length / 2) 0) / 2

/-- Linear-interpolation percentile (`np.percentile` default method). -/
def percentileList (l : List ℚ) (p : ℚ) : ℚ :=
  let s := List.insertionSort (fun a b => a ≤ b) l
  let pos : ℚ := ((l.length : ℚ) - 1) * p / 100
  let lo : ℕ := (⌊pos⌋).toNat
  let hi : ℕ := (⌈pos⌉).toNat
  let frac : ℚ := pos - (lo : ℚ)
  s.getD lo 0 + frac * (s.getD hi 0 - s.getD lo 0)

/-- Population standard deviation (`np.std`): oracle square root of the mean
squared deviation from the mean. -/
def stdList (O : ℚ → ℚ) (l : List ℚ) : ℚ :=
  O (meanList (l.map (fun d => (d - meanList l) ^ 2)))

/-- The dictionary returned by `compute_geometric_differences` (lines 229-239). -/
structure GeomReport where
  teacher_to_student : List ℚ
  student_to_teacher : List ℚ
  mean_deviation : ℚ
  max_deviation : ℚ
  std_deviation : ℚ
  median_deviation : ℚ
  percentile_95 : ℚ
  percentile_99 : ℚ
  hausdorff_distance : ℚ
deriving DecidableEq

/-- Message of the `ValueError` sklearn raises when fitting or querying a
nearest-neighbour index with an empty point array. -/
def fitEmptyMsg : String := "Found array with 0 sample(s) while a minimum of 1 is required"

/-- `compute_geometric_differences` (lines 216-239): bidirectional
1-nearest-neighbour distances and their aggregate statistics; all aggregates
except the Hausdorff distance are over the teacher-to-student direction. -/
def compute_geometric_differences (O : ℚ → ℚ) (teacher_points student_points : List Q3) :
    Except String GeomReport :=
  if student_points = [] then .error fitEmptyMsg
  else if teacher_points = [] then .error fitEmptyMsg
  else
    let t2s := teacher_points.map (fun p => nnDist O p student_points)
    let s2t := student_points.map (fun p => nnDist O p teacher_points)
    .ok { teacher_to_student := t2s
          student_to_teacher := s2t
          mean_deviation := meanList t2s
          max_deviation := maxList t2s
          std_deviation := stdList O t2s
          median_deviation := medianList t2s
          percentile_95 := percentileList t2s 95
          percentile_99 := percentileList t2s 99
          hausdorff_distance := max (maxList t2s) (maxList s2t) }

/-- The dictionary returned by `calculate_grade` (lines 275-283). -/
structure GradeResult where
  letter_grade : Grade
  numerical_score : ℚ
  mean_deviation : ℚ
  max_deviation : ℚ
  std_deviation : ℚ
  percentile_95 : ℚ
  hausdorff_distance : ℚ
deriving DecidableEq

/-- `calculate_grade` (lines 241-283) assembled from its pieces. -/
def calculate_grade (r : GeomReport) : GradeResult :=
  { letter_grade := letterGradeOf r.mean_deviation
    numerical_score := finalScore r.mean_deviation r.max_deviation
    mean_deviation := r.mean_deviation
    max_deviation := r.max_deviation
    std_deviation := r.std_deviation
    percentile_95 := r.percentile_95
    hausdorff_distance := r.hausdorff_distance }

/-- Abstraction of the string built by `generate_feedback` (lines 285-366):
the text is a pure function of the grade, the score, and the three
recommendation conditions recorded here; the fixed templates themselves are
not modelled. -/
structure Feedback where
  letter_grade : Grade
  numerical_score : ℚ
  high_variation : Bool
  localized_errors : Bool
  broad_inaccuracy : Bool
deriving DecidableEq

/-- `generate_feedback` decision content (lines 349-356): the three
conditional recommendation checks. -/
def generate_feedback (g : GradeResult) (r : GeomReport) : Feedback :=
  { letter_grade := g.letter_grade
    numerical_score := g.numerical_score
    high_variation := decide (r.std_deviation > 1/2)
    localized_errors := decide (r.max_deviation > 2 * r.mean_deviation)
    broad_inaccuracy := decide (r.percentile_95 > 1) }

/-- Printable grade letter, as interpolated into the heatmap title. -/
def gradeName : Grade → String
  | Grade.A => "A"
  | Grade.B => "B"
  | Grade.C => "C"
  | Grade.D => "D"
  | Grade.F => "F"

/-- Abstraction of `create_evaluation_heatmap` (lines 80-115): the plotted
data; the plotly figure construction is not modelled. -/
structure Heatmap where
  points : List Q3
  deviations : List ℚ
  title : String
deriving DecidableEq

/-- The `'success': True` dictionary of `evaluate` (lines 402-410). -/
structure SuccessPayload where
  grade : GradeResult
  geometric_analysis : GeomReport
  feedback : Feedback
  teacher_points : List Q3
  student_points : List Q3
  heatmap : Heatmap
deriving DecidableEq

/-- The return value of `evaluate`: either the success dictionary or the
`'success': False` dictionary carrying the caught exception's message. -/
inductive EvalResult where
  | success : SuccessPayload → EvalResult
  | failure : String → EvalResult
deriving DecidableEq

/-- `evaluate` (lines 368-416).  The external collaborators are oracles:
`loader` models `load_mesh` (file access plus `trimesh.load`; its `.error`
value is the raised exception's message) and `repairer` models
`repair_mesh_with_meshlab` (which never raises and returns a path).  The
surrounding `try/except` is the final match turning any stage's exception
into the failure dictionary. -/
def evaluate (O : ℚ → ℚ) (loader : String → Except String Mesh)
    (repairer : String → String) (teacher_model_path student_model_path : String)
    (num_points : ℕ) (rngT rngS : Rng) (repair_mesh : Bool) : EvalResult :=
  let tPath := if repair_mesh then repairer teacher_model_path else teacher_model_path
  let sPath := if repair_mesh then repairer student_model_path else student_model_path
  match loader tPath with
  | .error e => .failure e
  | .ok teacher_mesh =>
    match loader sPath with
    | .error e => .failure e
    | .ok student_mesh =>
      match extract_point_cloud O teacher_mesh num_points rngT with
      | .error e => .failure e
      | .ok teacher_points =>
        match extract_point_cloud O student_mesh num_points rngS with
        | .error e => .failure e
        | .ok student_points =>
          match compute_geometric_differences O teacher_points student_points with
          | .error e => .failure e
          | .ok geometric_results =>
            let grading_results := calculate_grade geometric_results
            let fb := generate_feedback grading_results geometric_results
            let hm : Heatmap :=
              { points := student_points
                deviations := geometric_results.teacher_to_student
                title := "Geometric Accuracy - Grade: " ++ gradeName grading_results.letter_grade }
            .success
              { grade := grading_results
                geometric_analysis := geometric_results
                feedback := fb
                teacher_points := teacher_points
                student_points := student_points
                heatmap := hm }

/-! ## Theorems -/

theorem maxList_cons (x y : ℚ) (t : List ℚ) :
    maxList (x :: y :: t) = max x (maxList (y :: t)) := rfl

theorem le_maxList_of_mem {x : ℚ} {l : List ℚ} (h : x ∈ l) : x ≤ maxList l := by
  induction l with
  | nil => cases h
  | cons a t ih =>
    cases t with
    | nil => simp only [List.mem_singleton] at h; simp [maxList, h]
    | cons b t2 =>
      rw [maxList_cons]
      rcases List.mem_cons.mp h with h1 | h2
      · exact h1 ▸ le_max_left _ _
      · exact le_trans (ih h2) (le_max_right _ _)

theorem maxList_mem {l : List ℚ} (h : l ≠ []) : maxList l ∈ l := by
  induction l with
  | nil => exact absurd rfl h
  | cons a t ih =>
    cases t with
    | nil => simp [maxList]
    | cons b t2 =>
      rw [maxList_cons]
      rcases max_cases a (maxList (b :: t2)) with ⟨he, _⟩ | ⟨he, _⟩ <;> rw [he]
      · exact List.mem_cons_self _ _
      · exact List.mem_cons_of_mem _ (ih (by simp))

theorem roundHalfEven_nonneg {q : ℚ} (h : 0 ≤ q) : 0 ≤ roundHalfEven q := by
  unfold roundHalfEven
  dsimp only
  have hf : (0 : ℤ) ≤ ⌊q⌋ := Int.floor_nonneg.mpr h
  split_ifs <;> omega

theorem roundHalfEven_le {q : ℚ} {n : ℤ} (h : q ≤ (n : ℚ)) : roundHalfEven q ≤ n := by
  unfold roundHalfEven
  dsimp only
  have hf : ⌊q⌋ ≤ n := by
    have := Int.floor_le_floor h
    simpa using this
  rcases lt_or_eq_of_le hf with hlt | heq
  · split_ifs <;> omega
  · have hr : q - (⌊q⌋ : ℚ) ≤ 0 := by
      rw [heq]; linarith
    have : q - (⌊q⌋ : ℚ) < 1/2 := lt_of_le_of_lt hr (by norm_num)
    simp only [this, if_pos]
    omega

theorem round1_mem_Icc {q : ℚ} (h0 : 0 ≤ q) (h100 : q ≤ 100) :
    0 ≤ round1 q ∧ round1 q ≤ 100 := by
  unfold round1
  have h1 : (0 : ℤ) ≤ roundHalfEven (10 * q) := roundHalfEven_nonneg (by linarith)
  have h2 : roundHalfEven (10 * q) ≤ (1000 : ℤ) := roundHalfEven_le (by push_cast; linarith)
  constructor
  · positivity
  · rw [div_le_iff₀ (by norm_num)]
    calc ((roundHalfEven (10 * q) : ℚ)) ≤ (1000 : ℚ) := by exact_mod_cast h2
    _ = 100 * 10 := by norm_num

/-- C2: grade selection follows the first-match ascending rule.  For every
mean deviation, the grade the code's loop (lines 246-250) picks over the
evaluator's threshold table equals the spec's selector — the first grade, in
ascending threshold order, whose threshold is `≥` the mean deviation, with
the catch-all grade when none matches — and the table's thresholds are
strictly ascending, so iterating in insertion order is iterating in ascending
threshold order. -/
theorem c2_grade_first_match_ascending :
    ∀ mean_dev : ℚ,
      letterGradeOf mean_dev = specFirstMatchGrade grading_thresholds mean_dev
      ∧ List.Chain' (fun a b => a < b) (grading_thresholds.map Prod.snd) := by
  intro d
  constructor
  · simp only [letterGradeOf, letterLoop, specFirstMatchGrade, grading_thresholds, List.find?]
    simp only [WithTop.coe_le_coe, le_top, if_true]
    split_ifs with h1 h2 h3 h4 <;> simp_all [one_div, -not_le]
  · refine List.chain'_cons.mpr ⟨?_, List.chain'_cons.mpr ⟨?_, List.chain'_cons.mpr ⟨?_,
      List.chain'_cons.mpr ⟨?_, List.chain'_singleton _⟩⟩⟩⟩
    · exact WithTop.coe_lt_coe.mpr (by norm_num)
    · exact WithTop.coe_lt_coe.mpr (by norm_num)
    · exact WithTop.coe_lt_coe.mpr (by norm_num)
    · exact WithTop.coe_lt_top _

/-- C3: score boundedness.  For every non-negative mean and max deviation the
numerical score of `calculate_grade` — after the secondary max-deviation
penalty, the clamp, and the rounding of line 277 — lies in `[0, 100]`. -/
theorem c3_score_bounded (mean_dev max_dev : ℚ) (hm : 0 ≤ mean_dev) (hM : 0 ≤ max_dev) :
    0 ≤ finalScore mean_dev max_dev ∧ finalScore mean_dev max_dev ≤ 100 := by
  unfold finalScore
  have hc : 0 ≤ clampScore (penalizedScore mean_dev max_dev)
      ∧ clampScore (penalizedScore mean_dev max_dev) ≤ 100 := by
    unfold clampScore
    constructor
    · exact le_max_left _ _
    · exact max_le (by norm_num) (min_le_left _ _)
  exact round1_mem_Icc hc.1 hc.2

/-- Witness for C3 at `mean_dev = 3/10`, `max_dev = 4`. -/
theorem c3_score_bounded_witness :
    (0 : ℚ) ≤ 3/10 ∧ (0 : ℚ) ≤ 4
    ∧ (0 ≤ finalScore (3/10) 4 ∧ finalScore (3/10) 4 ≤ 100) :=
  ⟨by norm_num, by norm_num, c3_score_bounded (3/10) 4 (by norm_num) (by norm_num)⟩

theorem letterGradeOf_F_iff {m : ℚ} : letterGradeOf m = Grade.F ↔ 2 < m := by
  simp only [letterGradeOf, letterLoop, grading_thresholds, WithTop.coe_le_coe, le_top, if_true]
  constructor
  · intro h
    split_ifs at h with h1 h2 h3 h4
    exact not_le.mp h4
  · intro h
    split_ifs <;> first | rfl | (exfalso; linarith)

theorem round1_zero : round1 0 = 0 := by with_unfolding_all decide

/-- C10: every evaluation graded `F` scores exactly 0.  The F band minimum is
0, so the F-branch formula `max(0, band_min - mean_dev * 10)` (line 258)
yields 0 whenever the mean deviation selects grade F, and the penalty, the
clamp, and the rounding keep the returned score at 0. -/
theorem c10_grade_F_scores_zero (mean_dev max_dev : ℚ)
    (hF : letterGradeOf mean_dev = Grade.F) :
    rawScore mean_dev = 0 ∧ finalScore mean_dev max_dev = 0 := by
  have hm : 2 < mean_dev := letterGradeOf_F_iff.mp hF
  have hraw : rawScore mean_dev = 0 := by
    unfold rawScore
    rw [hF]
    simp only [detailed_scoring]
    have : (0 : ℚ) - mean_dev * 10 ≤ 0 := by linarith
    exact max_eq_left this
  refine ⟨hraw, ?_⟩
  unfold finalScore penalizedScore
  rw [hraw]
  have hclamp : ∀ x : ℚ, x ≤ 0 → clampScore x = 0 := by
    intro x hx
    unfold clampScore
    rw [min_eq_right (by linarith), max_eq_left hx]
  split_ifs <;> rw [hclamp _ (by norm_num)] <;> exact round1_zero

/-- Witness for C10 at `mean_dev = 3`, `max_dev = 6`. -/
theorem c10_grade_F_scores_zero_witness :
    letterGradeOf 3 = Grade.F ∧ (rawScore 3 = 0 ∧ finalScore 3 6 = 0) :=
  ⟨by with_unfolding_all decide, c10_grade_F_scores_zero 3 6 (by with_unfolding_all decide)⟩

/-- C7: for every intermediate grade (B, C, D) the raw numerical score is the
linear interpolation mapping the interval between the previous (stricter)
grade's threshold and the grade's own threshold onto the grade's score band:
deviation at the previous threshold yields the band maximum and deviation at
the current threshold yields the band minimum (lines 259-266). -/
theorem c7_intermediate_interpolation (g : Grade) (d : ℚ)
    (hg : g = Grade.B ∨ g = Grade.C ∨ g = Grade.D)
    (hlo : thrQ (prevGrade g) < d) (hhi : d ≤ thrQ g) :
    letterGradeOf d = g
    ∧ rawScore d = interpMap g d
    ∧ interpMap g (thrQ (prevGrade g)) = (detailed_scoring g).2
    ∧ interpMap g (thrQ g) = (detailed_scoring g).1 := by
  rcases hg with rfl | rfl | rfl
  · rw [show thrQ (prevGrade Grade.B) = 1/10 from by with_unfolding_all decide] at hlo
    rw [show thrQ Grade.B = 1/2 from by with_unfolding_all decide] at hhi
    have hletter : letterGradeOf d = Grade.B := by
      simp only [letterGradeOf, letterLoop, grading_thresholds, WithTop.coe_le_coe, le_top,
        if_true]
      split_ifs <;> first | rfl | (exfalso; linarith)
    refine ⟨hletter, ?_, by with_unfolding_all decide, by with_unfolding_all decide⟩
    unfold rawScore
    dsimp only
    rw [hletter]
    simp only [interpMap, detailed_scoring,
      show thrQ (prevGrade Grade.B) = 1/10 from by with_unfolding_all decide,
      show thrQ Grade.B = 1/2 from by with_unfolding_all decide]
    ring
  · rw [show thrQ (prevGrade Grade.C) = 1/2 from by with_unfolding_all decide] at hlo
    rw [show thrQ Grade.C = 1 from by with_unfolding_all decide] at hhi
    have hletter : letterGradeOf d = Grade.C := by
      simp only [letterGradeOf, letterLoop, grading_thresholds, WithTop.coe_le_coe, le_top,
        if_true]
      split_ifs <;> first | rfl | (exfalso; linarith)
    refine ⟨hletter, ?_, by with_unfolding_all decide, by with_unfolding_all decide⟩
    unfold rawScore
    dsimp only
    rw [hletter]
    simp only [interpMap, detailed_scoring,
      show thrQ (prevGrade Grade.C) = 1/2 from by with_unfolding_all decide,
      show thrQ Grade.C = 1 from by with_unfolding_all decide]
    ring
  · rw [show thrQ (prevGrade Grade.D) = 1 from by with_unfolding_all decide] at hlo
    rw [show thrQ Grade.D = 2 from by with_unfolding_all decide] at hhi
    have hletter : letterGradeOf d = Grade.D := by
      simp only [letterGradeOf, letterLoop, grading_thresholds, WithTop.coe_le_coe, le_top,
        if_true]
      split_ifs <;> first | rfl | (exfalso; linarith)
    refine ⟨hletter, ?_, by with_unfolding_all decide, by with_unfolding_all decide⟩
    unfold rawScore
    dsimp only
    rw [hletter]
    simp only [interpMap, detailed_scoring,
      show thrQ (prevGrade Grade.D) = 1 from by with_unfolding_all decide,
      show thrQ Grade.D = 2 from by with_unfolding_all decide]
    ring

/-- Witness for C7 at grade B with `mean_dev = 3/10`. -/
theorem c7_intermediate_interpolation_witness :
    (Grade.B = Grade.B ∨ Grade.B = Grade.C ∨ Grade.B = Grade.D)
    ∧ thrQ (prevGrade Grade.B) < 3/10 ∧ (3/10 : ℚ) ≤ thrQ Grade.B
    ∧ (letterGradeOf (3/10) = Grade.B
       ∧ rawScore (3/10) = interpMap Grade.B (3/10)
       ∧ interpMap Grade.B (thrQ (prevGrade Grade.B)) = (detailed_scoring Grade.B).2
       ∧ interpMap Grade.B (thrQ Grade.B) = (detailed_scoring Grade.B).1) :=
  ⟨Or.inl rfl, by with_unfolding_all decide, by with_unfolding_all decide,
   c7_intermediate_interpolation Grade.B (3/10) (Or.inl rfl)
     (by with_unfolding_all decide) (by with_unfolding_all decide)⟩

/-- C8: Hausdorff symmetry under swap.  For every pair of non-empty point
clouds and any square-root oracle, the `hausdorff_distance` field the distance
engine computes is unchanged when the reference and submission clouds are
swapped, because it is `max` of the two directional maxima (line 238). -/
theorem c8_hausdorff_swap_symmetric (O : ℚ → ℚ) (t s : List Q3) (ht : t ≠ []) (hs : s ≠ []) :
    Except.map GeomReport.hausdorff_distance (compute_geometric_differences O t s)
    = Except.map GeomReport.hausdorff_distance (compute_geometric_differences O s t) := by
  unfold compute_geometric_differences
  rw [if_neg hs, if_neg ht, if_neg ht, if_neg hs]
  simp only [Except.map]
  exact congrArg Except.ok (max_comm _ _)

/-- Witness for C8 on two one-point clouds. -/
theorem c8_hausdorff_swap_symmetric_witness :
    ([((0:ℚ), (0:ℚ), (0:ℚ))] : List Q3) ≠ []
    ∧ ([((1:ℚ), (0:ℚ), (0:ℚ))] : List Q3) ≠ []
    ∧ Except.map GeomReport.hausdorff_distance
        (compute_geometric_differences (fun q => q)
          [((0:ℚ), (0:ℚ), (0:ℚ))] [((1:ℚ), (0:ℚ), (0:ℚ))])
      = Except.map GeomReport.hausdorff_distance
        (compute_geometric_differences (fun q => q)
          [((1:ℚ), (0:ℚ), (0:ℚ))] [((0:ℚ), (0:ℚ), (0:ℚ))]) :=
  ⟨by simp, by simp,
   c8_hausdorff_swap_symmetric (fun q => q) _ _ (by simp) (by simp)⟩

/-- C5: a target point count of 0 makes the sampling stage raise — the
selection is empty, so `np.max` of line 210 raises its zero-size `ValueError`
— for every mesh and random state, and consequently `evaluate` with
`num_points = 0` always returns the failure dictionary. -/
theorem c5_target_zero_fails (O : ℚ → ℚ) :
    (∀ (m : Mesh) (rng : Rng), extract_point_cloud O m 0 rng = .error zeroSizeMsg)
    ∧ ∀ (loader : String → Except String Mesh) (repairer : String → String)
        (tP sP : String) (rngT rngS : Rng) (flag : Bool),
        ∃ e, evaluate O loader repairer tP sP 0 rngT rngS flag = .failure e := by
  have hext : ∀ (m : Mesh) (rng : Rng), extract_point_cloud O m 0 rng = .error zeroSizeMsg := by
    intro m rng
    unfold extract_point_cloud sampleSelection
    rcases m with ⟨v, f, w⟩
    cases w
    · simp [drawWOR, Except.bind]
    · simp [Except.bind]
  refine ⟨hext, ?_⟩
  intro loader repairer tP sP rngT rngS flag
  unfold evaluate
  dsimp only
  cases hl : loader (if flag then repairer tP else tP) with
  | error e => exact ⟨e, rfl⟩
  | ok tm =>
    cases hl2 : loader (if flag then repairer sP else sP) with
    | error e => exact ⟨e, rfl⟩
    | ok sm => exact ⟨zeroSizeMsg, by dsimp only; rw [hext tm rngT]⟩

/-- C9: `evaluate` is total over exceptions.  For every oracle, loader,
repairer, paths, point count, random state and repair flag, the result is
either the success dictionary (with grade, geometric analysis, feedback,
point clouds and heatmap) or the failure dictionary with an error string; and
an exception raised by a stage — here the loader — becomes the failure
dictionary's error string instead of propagating. -/
theorem c9_evaluate_total_over_exceptions (O : ℚ → ℚ) (loader : String → Except String Mesh)
    (repairer : String → String) (tP sP : String) (n : ℕ) (rngT rngS : Rng) (flag : Bool) :
    ((∃ p, evaluate O loader repairer tP sP n rngT rngS flag = .success p)
      ∨ (∃ e, evaluate O loader repairer tP sP n rngT rngS flag = .failure e))
    ∧ (∀ e, loader (if flag then repairer tP else tP) = .error e →
        evaluate O loader repairer tP sP n rngT rngS flag = .failure e) := by
  constructor
  · unfold evaluate
    dsimp only
    cases loader (if flag then repairer tP else tP) with
    | error e => exact Or.inr ⟨e, rfl⟩
    | ok tm =>
      dsimp only
      cases loader (if flag then repairer sP else sP) with
      | error e => exact Or.inr ⟨e, rfl⟩
      | ok sm =>
        dsimp only
        cases extract_point_cloud O tm n rngT with
        | error e => exact Or.inr ⟨e, rfl⟩
        | ok tpts =>
          dsimp only
          cases extract_point_cloud O sm n rngS with
          | error e => exact Or.inr ⟨e, rfl⟩
          | ok spts =>
            dsimp only
            cases compute_geometric_differences O tpts spts with
            | error e => exact Or.inr ⟨e, rfl⟩
            | ok geo => exact Or.inl ⟨_, rfl⟩
  · intro e he
    unfold evaluate
    dsimp only
    rw [he]

/-- C1: point sampling is not reproducible from the arguments alone.  The
code's `extract_point_cloud` has no seed parameter; it draws from numpy's
ambient global random state, and two calls with identical mesh and identical
target count but different ambient states return different point clouds:
here state A selects vertices 0 and 1 and state B selects vertices 0 and 2 of
the same non-watertight mesh.  The square-root oracle used agrees with the
real square root on every value queried (1 and 4). -/
theorem c1_sampling_depends_on_ambient_rng :
    extract_point_cloud (fun q => if q = 4 then 2 else if q = 1 then 1 else 0)
      ⟨[(0, 0, 0), (2, 0, 0), (0, 4, 0)], [], false⟩ 2 ⟨fun _ => 0, fun _ => (0, 0)⟩
    ≠ extract_point_cloud (fun q => if q = 4 then 2 else if q = 1 then 1 else 0)
      ⟨[(0, 0, 0), (2, 0, 0), (0, 4, 0)], [], false⟩ 2 ⟨fun i => i, fun _ => (0, 0)⟩ := by
  with_unfolding_all decide

/-- C6: a reference mesh with zero faces is not rejected.  For a loader that
returns a two-vertex, zero-face, non-watertight mesh, `evaluate` runs every
stage — vertex sampling, normalization, distance computation, grading,
feedback and heatmap — and returns the full success dictionary, with no
`InvalidMeshError` anywhere.  The oracle agrees with the real square root on
every value queried (0, 1 and 4). -/
theorem c6_zero_face_mesh_not_rejected :
    evaluate (fun q => if q = 4 then 2 else if q = 1 then 1 else 0)
      (fun _ => .ok ⟨[(0, 0, 0), (2, 0, 0)], [], false⟩) id "teacher.stl" "student.stl"
      2 ⟨fun _ => 0, fun _ => (0, 0)⟩ ⟨fun _ => 0, fun _ => (0, 0)⟩ false
    = EvalResult.success
        { grade := { letter_grade := Grade.A, numerical_score := 100, mean_deviation := 0,
                     max_deviation := 0, std_deviation := 0, percentile_95 := 0,
                     hausdorff_distance := 0 }
          geometric_analysis := { teacher_to_student := [0, 0], student_to_teacher := [0, 0],
                                  mean_deviation := 0, max_deviation := 0, std_deviation := 0,
                                  median_deviation := 0, percentile_95 := 0, percentile_99 := 0,
                                  hausdorff_distance := 0 }
          feedback := { letter_grade := Grade.A, numerical_score := 100, high_variation := false,
                        localized_errors := false, broad_inaccuracy := false }
          teacher_points := [(-1, 0, 0), (1, 0, 0)]
          student_points := [(-1, 0, 0), (1, 0, 0)]
          heatmap := { points := [(-1, 0, 0), (1, 0, 0)], deviations := [0, 0],
                       title := "Geometric Accuracy - Grade: A" } } := by
  with_unfolding_all decide

theorem sqNorm_nonneg (p : Q3) : 0 ≤ sqNorm p := by unfold sqNorm; positivity

theorem maxList_zero {l : List ℚ} (h : ∀ x ∈ l, x = 0) : maxList l = 0 := by
  induction l with
  | nil => rfl
  | cons a t ih =>
    cases t with
    | nil => simpa [maxList] using h a (by simp)
    | cons b t2 =>
      rw [maxList_cons, ih (fun x hx => h x (List.mem_cons_of_mem _ hx)), h a (by simp)]
      simp

theorem maxList_map_div {l : List ℚ} {k : ℚ} (hk : 0 < k) :
    maxList (l.map (fun x => x / k)) = maxList l / k := by
  induction l with
  | nil => simp [maxList]
  | cons a t ih =>
    cases t with
    | nil => simp [maxList]
    | cons b t2 =>
      have hstep : maxList ((a :: b :: t2).map (fun x => x / k))
          = max (a / k) (maxList ((b :: t2).map (fun x => x / k))) := by
        simp [List.map_cons, maxList_cons]
      rw [hstep, ih, maxList_cons, max_div_div_right hk.le]

theorem max_sq_of_nonneg {a b : ℚ} (ha : 0 ≤ a) (hb : 0 ≤ b) :
    max a b ^ 2 = max (a ^ 2) (b ^ 2) := by
  rcases le_total a b with h | h
  · rw [max_eq_right h, max_eq_right (by nlinarith)]
  · rw [max_eq_left h, max_eq_left (by nlinarith)]

theorem maxList_map_sq {l : List ℚ} (h : ∀ x ∈ l, 0 ≤ x) :
    maxList (l.map (fun x => x ^ 2)) = (maxList l) ^ 2 := by
  induction l with
  | nil => simp [maxList]
  | cons a t ih =>
    cases t with
    | nil => simp [maxList]
    | cons b t2 =>
      have hstep : maxList ((a :: b :: t2).map (fun x => x ^ 2))
          = max (a ^ 2) (maxList ((b :: t2).map (fun x => x ^ 2))) := by
        simp [List.map_cons, maxList_cons]
      have hb0 : 0 ≤ maxList (b :: t2) :=
        le_trans (h b (by simp)) (le_maxList_of_mem (by simp))
      rw [hstep, ih (fun x hx => h x (List.mem_cons_of_mem _ hx)), maxList_cons]
      exact (max_sq_of_nonneg (h a (by simp)) hb0).symm

theorem sqNorm_vdiv (p : Q3) (s : ℚ) : sqNorm (vdiv p s) = sqNorm p / s ^ 2 := by
  unfold sqNorm vdiv
  rw [div_pow, div_pow, div_pow, div_add_div_same, div_add_div_same]

theorem vsum_map_vsub (l : List Q3) (c : Q3) :
    vsum (l.map (fun p => vsub p c)) = vsub (vsum l) (vsmul (l.length : ℚ) c) := by
  induction l with
  | nil => simp [vsum, vsub, vsmul]
  | cons a t ih =>
    simp only [List.map_cons, vsum, List.foldr_cons] at *
    rw [ih]
    simp only [vadd, vsub, vsmul, List.length_cons]
    refine Prod.ext ?_ (Prod.ext ?_ ?_) <;> push_cast <;> dsimp <;> ring

theorem centroid_centerPts {l : List Q3} (h : l ≠ []) : centroid (centerPts l) = (0, 0, 0) := by
  have hn : ((l.length : ℚ)) ≠ 0 := by
    have : l.length ≠ 0 := Nat.pos_iff_ne_zero.mp (List.length_pos.mpr h)
    exact_mod_cast this
  unfold centroid centerPts
  rw [vsum_map_vsub, List.length_map]
  unfold centroid
  generalize vsum l = S
  obtain ⟨x, y, z⟩ := S
  simp only [vsub, vsmul, vdiv]
  refine Prod.ext ?_ (Prod.ext ?_ ?_) <;> dsimp <;> field_simp

/-- C4: the normalization invariant of `extract_point_cloud` (lines 208-214).
For every non-empty sampled point list, and every square-root oracle that is
exact and non-negative on the squared norms it is queried at: the centred
cloud's centroid is exactly the origin; when the maximal squared norm is
positive, after the division by the scale the maximal squared point norm —
and hence the maximal point-to-origin distance — is exactly 1; and when the
scale is 0 (all points coincide) the division is skipped and the centred
points are returned unchanged, without failing. -/
theorem c4_normalization_invariant (O : ℚ → ℚ) (pts : List Q3) (hne : pts ≠ [])
    (hO : ∀ q ∈ (centerPts pts).map sqNorm, 0 ≤ O q ∧ O q ^ 2 = q) :
    centroid (centerPts pts) = (0, 0, 0)
    ∧ (0 < maxSqNorm (centerPts pts) →
        maxSqNorm (applyScale O (centerPts pts)) = 1
        ∧ Real.sqrt ((maxSqNorm (applyScale O (centerPts pts)) : ℚ) : ℝ) = 1)
    ∧ (maxSqNorm (centerPts pts) = 0 → applyScale O (centerPts pts) = centerPts pts) := by
  have hcne : centerPts pts ≠ [] := by
    simp only [centerPts, ne_eq, List.map_eq_nil_iff]
    exact hne
  refine ⟨centroid_centerPts hne, ?_, ?_⟩
  · intro hpos
    have hmapne : (centerPts pts).map sqNorm ≠ [] := by
      simpa [List.map_eq_nil_iff] using hcne
    have hmem : maxSqNorm (centerPts pts) ∈ (centerPts pts).map sqNorm :=
      maxList_mem hmapne
    obtain ⟨p0, hp0mem, hp0⟩ := List.mem_map.mp hmem
    have hOp0 := hO (sqNorm p0) (List.mem_map_of_mem _ hp0mem)
    have hOp0pos : 0 < O (sqNorm p0) := by
      rcases lt_or_eq_of_le hOp0.1 with hlt | heq
      · exact hlt
      · exfalso
        have h2 := hOp0.2
        rw [← heq] at h2
        rw [hp0] at h2
        simp at h2
        exact absurd h2.symm (ne_of_gt hpos)
    have hscale_pos : 0 < scaleOf O (centerPts pts) :=
      lt_of_lt_of_le hOp0pos (le_maxList_of_mem (List.mem_map_of_mem _ hp0mem))
    have hvnonneg : ∀ x ∈ (centerPts pts).map (fun p => O (sqNorm p)), 0 ≤ x := by
      intro x hx
      obtain ⟨p, hp, rfl⟩ := List.mem_map.mp hx
      exact (hO _ (List.mem_map_of_mem _ hp)).1
    have hsq : (scaleOf O (centerPts pts)) ^ 2 = maxSqNorm (centerPts pts) := by
      unfold scaleOf maxSqNorm
      rw [← maxList_map_sq hvnonneg, List.map_map]
      congr 1
      refine List.map_congr_left ?_
      intro p hp
      exact (hO _ (List.mem_map_of_mem _ hp)).2
    have hb1 : maxSqNorm (applyScale O (centerPts pts)) = 1 := by
      unfold applyScale
      rw [if_pos hscale_pos]
      unfold maxSqNorm
      rw [List.map_map]
      have : (sqNorm ∘ fun p => vdiv p (scaleOf O (centerPts pts)))
          = fun p => sqNorm p / (scaleOf O (centerPts pts)) ^ 2 := by
        funext p
        exact sqNorm_vdiv p _
      rw [this]
      have hpow : (0 : ℚ) < (scaleOf O (centerPts pts)) ^ 2 := by positivity
      have hrw : ((centerPts pts).map fun p => sqNorm p / (scaleOf O (centerPts pts)) ^ 2)
          = ((centerPts pts).map sqNorm).map (fun x => x / (scaleOf O (centerPts pts)) ^ 2) := by
        rw [List.map_map]
        exact rfl
      rw [hrw, maxList_map_div hpow, hsq]
      exact div_self (ne_of_gt hpos)
    refine ⟨hb1, ?_⟩
    rw [hb1]
    simp
  · intro h0
    have hall : ∀ p ∈ centerPts pts, sqNorm p = 0 := by
      intro p hp
      refine le_antisymm ?_ (sqNorm_nonneg p)
      rw [← h0]
      exact le_maxList_of_mem (List.mem_map_of_mem _ hp)
    have hOzero : ∀ x ∈ (centerPts pts).map (fun p => O (sqNorm p)), x = 0 := by
      intro x hx
      obtain ⟨p, hp, rfl⟩ := List.mem_map.mp hx
      have h2 := (hO _ (List.mem_map_of_mem _ hp)).2
      rw [hall p hp] at h2 ⊢
      exact (pow_eq_zero_iff two_ne_zero).mp h2
    have hs0 : scaleOf O (centerPts pts) = 0 := by
      unfold scaleOf
      exact maxList_zero hOzero
    unfold applyScale
    rw [hs0]
    simp

/-- Witness for C4 on the two-point list `[(0,0,0), (2,0,0)]` with the
identity oracle, which is exact on the only queried squared norm 1. -/
theorem c4_normalization_invariant_witness :
    (([(0, 0, 0), (2, 0, 0)] : List Q3) ≠ [])
    ∧ (∀ q ∈ (centerPts ([(0, 0, 0), (2, 0, 0)] : List Q3)).map sqNorm,
        0 ≤ (fun x : ℚ => x) q ∧ (fun x : ℚ => x) q ^ 2 = q)
    ∧ (centroid (centerPts ([(0, 0, 0), (2, 0, 0)] : List Q3)) = (0, 0, 0)
       ∧ (0 < maxSqNorm (centerPts ([(0, 0, 0), (2, 0, 0)] : List Q3)) →
            maxSqNorm (applyScale (fun x : ℚ => x)
              (centerPts ([(0, 0, 0), (2, 0, 0)] : List Q3))) = 1
            ∧ Real.sqrt ((maxSqNorm (applyScale (fun x : ℚ => x)
                (centerPts ([(0, 0, 0), (2, 0, 0)] : List Q3))) : ℚ) : ℝ) = 1)
       ∧ (maxSqNorm (centerPts ([(0, 0, 0), (2, 0, 0)] : List Q3)) = 0 →
            applyScale (fun x : ℚ => x) (centerPts ([(0, 0, 0), (2, 0, 0)] : List Q3))
              = centerPts ([(0, 0, 0), (2, 0, 0)] : List Q3))) :=
  ⟨by simp, by with_unfolding_all decide,
   c4_normalization_invariant (fun x : ℚ => x) ([(0, 0, 0), (2, 0, 0)] : List Q3)
     (by simp) (by with_unfolding_all decide)⟩
